/-
  Verification development for the library-catalog manager in `src/script.js`
  (class `LibrarySystem`).

  The JavaScript source is shallowly embedded: the in-memory application state
  (`this.books`, `this.borrowedBooks`) becomes a `LibState`, each data-mutating
  method becomes a pure Lean function on that state, and JS numbers are
  modelled as `Int` (the quantities involved are exact small integers).
  DOM rendering, toasts and `localStorage` persistence are side channels that
  never feed back into the embedded data logic and are dropped.
-/
import Mathlib

set_option maxHeartbeats 1000000

/-- Settings object (`this.settings`, script.js lines 15-22). -/
structure Settings where
  loanDays : Nat
  guestBorrow : Bool
  defaultCopies : Int
  defaultYear : Int
  autoUpdateInterval : Nat
  googleWebAppUrl : String
  deriving DecidableEq

/-- The constructor defaults of `this.settings` (script.js lines 15-22). -/
def defaultSettings : Settings :=
  { loanDays := 14, guestBorrow := false, defaultCopies := 1, defaultYear := 2024,
    autoUpdateInterval := 300000, googleWebAppUrl := "" }

/-- A logged-in user (`this.currentUser`: `{ username, role }`, line 525). -/
structure User where
  username : String
  role : String
  deriving DecidableEq

/-- A book record.  `bookIds` is `none` for records created by `handleAddBook`
(whose object literal, lines 682-689, has no `bookIds` field) and `some` for
records built by the CSV import (lines 467-475). -/
structure Book where
  id : String
  bookIds : Option (List String)
  title : String
  genre : String
  year : Int
  copies : Int
  availableCopies : Int
  deriving DecidableEq

/-- A borrow record (script.js lines 977-985).  Timestamps are modelled as
`Nat` milliseconds; `returnedAt = none` is JS `returnedAt: null`. -/
structure Loan where
  id : String
  bookId : String
  bookTitle : String
  userId : String
  borrowDate : Nat
  dueDate : Nat
  returnedAt : Option Nat
  deriving DecidableEq

/-- The mutable data state of the `LibrarySystem` singleton. -/
structure LibState where
  books : List Book
  borrowedBooks : List Loan
  deriving DecidableEq

/-- JS `v || d` applied to the result of `parseInt`: `none` models `NaN`,
and `0` is falsy, so both fall back to the default. -/
def jsOr (v : Option Int) (d : Int) : Int :=
  match v with
  | none => d
  | some 0 => d
  | some x => x

/-- JS `String.prototype.trim()`, computed on the character list (the
library `String.trim` is defined by well-founded recursion and does not
evaluate in the kernel). -/
def jsTrim (s : String) : String :=
  String.mk (((s.data.dropWhile Char.isWhitespace).reverse.dropWhile Char.isWhitespace).reverse)

instance {e : Type u} {a : Type v} [DecidableEq e] [DecidableEq a] :
    DecidableEq (Except e a)
  | .error e1, .error e2 =>
    if h : e1 = e2 then isTrue (by rw [h]) else isFalse (fun hc => h (Except.error.inj hc))
  | .error _, .ok _ => isFalse (fun hc => Except.noConfusion hc)
  | .ok _, .error _ => isFalse (fun hc => Except.noConfusion hc)
  | .ok a1, .ok a2 =>
    if h : a1 = a2 then isTrue (by rw [h]) else isFalse (fun hc => h (Except.ok.inj hc))

/-- JS `parseInt(s)` (radix 10): skip leading whitespace, optional sign,
then the maximal leading digit run; `none` models `NaN`. -/
def parseIntJS (s : String) : Option Int :=
  let t := jsTrim s
  let signed : Int × List Char :=
    match t.data with
    | '-' :: cs => (-1, cs)
    | '+' :: cs => (1, cs)
    | cs => (1, cs)
  let digits := signed.2.takeWhile Char.isDigit
  if digits.isEmpty then none
  else some (signed.1 * (digits.foldl (fun acc c => acc * 10 + (c.toNat - '0'.toNat)) 0 : Nat))

/-- The book-code test `/^[ABC]\d+$/.test(id)` used at script.js lines 437,
665 and 890: an uppercase letter `A`, `B` or `C` followed by one or more
ASCII digits. -/
def validCode (s : String) : Bool :=
  match s.data with
  | [] => false
  | c :: rest => (c == 'A' || c == 'B' || c == 'C') && !rest.isEmpty && rest.all Char.isDigit

/-- `getGenreFromId` (script.js lines 764-772): genre from the uppercased
first character; empty or unmapped yields the unknown genre. -/
def getGenreFromId (id : String) : String :=
  match id.data with
  | [] => "未知"
  | c :: _ =>
    if c.toUpper == 'A' then "繪本"
    else if c.toUpper == 'B' then "橋梁書"
    else if c.toUpper == 'C' then "文字書"
    else "未知"

/-- Replace the first element satisfying `p` by its image under `f`; this is
the effect of JS `const x = list.find(p); mutate(x)` on an array of objects. -/
def updateFirst (p : α → Bool) (f : α → α) : List α → List α
  | [] => []
  | x :: xs => if p x then f x :: xs else x :: updateFirst p f xs

/-- `borrowedBooks.filter(b => b.bookId === code && !b.returnedAt).length`
(script.js lines 1235 and 1268; the spec calls it `openLoansFor`). -/
def openLoansFor (loans : List Loan) (code : String) : Nat :=
  (loans.filter (fun b => b.bookId == code && b.returnedAt.isNone)).length

inductive BorrowErr
  | notLoggedIn
  | guestBlocked
  | notFound
  | noCopies
  | alreadyBorrowed
  deriving DecidableEq

/-- The loan record built by a successful borrow (script.js lines 974-985).
`new Date()` / `Date.now()` is the `now` parameter; the record id is
`Date.now().toString()` and `dueDate = borrowDate + loanDays` days. -/
def mkBorrowRecord (settings : Settings) (u : User) (book : Book) (bookId : String) (now : Nat) : Loan :=
  { id := toString now, bookId := bookId, bookTitle := book.title, userId := u.username,
    borrowDate := now, dueDate := now + settings.loanDays * 24 * 60 * 60 * 1000,
    returnedAt := none }

/-- `borrowBook(bookId)` (script.js lines 939-997).  Guards in source order:
login, guest policy, existence, availability, one-open-loan-per-user-per-book.
On success the record is pushed and the found book's `availableCopies` is
decremented. -/
def borrowBook (settings : Settings) (user : Option User) (st : LibState)
    (bookId : String) (now : Nat) : Except BorrowErr LibState :=
  match user with
  | none => .error .notLoggedIn
  | some u =>
    if u.role == "guest" && !settings.guestBorrow then .error .guestBlocked
    else
      match st.books.find? (fun b => b.id == bookId) with
      | none => .error .notFound
      | some book =>
        if book.availableCopies ≤ 0 then .error .noCopies
        else if (st.borrowedBooks.find? (fun b =>
            b.bookId == bookId && b.userId == u.username && b.returnedAt.isNone)).isSome then
          .error .alreadyBorrowed
        else
          .ok { books := updateFirst (fun b => b.id == bookId)
                  (fun b => { b with availableCopies := b.availableCopies - 1 }) st.books,
                borrowedBooks := st.borrowedBooks ++ [mkBorrowRecord settings u book bookId now] }

inductive ReturnErr
  | notFound
  | alreadyReturned
  deriving DecidableEq

/-- `returnBook(borrowId)` (script.js lines 1000-1026): find the record,
reject if absent or already returned, else stamp `returnedAt` and increment
the availability of the first book whose id matches (if any). -/
def returnBook (st : LibState) (borrowId : String) (now : Nat) : Except ReturnErr LibState :=
  match st.borrowedBooks.find? (fun b => b.id == borrowId) with
  | none => .error .notFound
  | some borrowRecord =>
    if borrowRecord.returnedAt.isSome then .error .alreadyReturned
    else
      .ok { borrowedBooks := updateFirst (fun b => b.id == borrowId)
              (fun b => { b with returnedAt := some now }) st.borrowedBooks,
            books := updateFirst (fun b => b.id == borrowRecord.bookId)
              (fun b => { b with availableCopies := b.availableCopies + 1 }) st.books }

inductive AddErr
  | badCode
  | dupCode
  | noTitle
  deriving DecidableEq

/-- `handleAddBook` (script.js lines 657-701), data part.  `yearRaw` and
`copiesRaw` are the `parseInt` results of the two form fields; the JS
`parseInt(x) || default` fallback is `jsOr`.  The new record has no
`bookIds` field. -/
def handleAddBook (settings : Settings) (st : LibState) (idRaw titleRaw : String)
    (yearRaw copiesRaw : Option Int) : Except AddErr LibState :=
  let id := (jsTrim idRaw)
  let title := (jsTrim titleRaw)
  let year := jsOr yearRaw settings.defaultYear
  let copies := jsOr copiesRaw settings.defaultCopies
  if !validCode id then .error .badCode
  else if (st.books.find? (fun b => b.id == id)).isSome then .error .dupCode
  else if title == "" then .error .noTitle
  else
    .ok { st with books := st.books ++
            [{ id := id, bookIds := none, title := title, genre := getGenreFromId id,
               year := year, copies := copies, availableCopies := copies }] }

inductive EditErr
  | noId
  | noTitle
  | notFound
  | tooFewCopies
  deriving DecidableEq

/-- The in-place mutation of the found book in `handleEditBook` (script.js
lines 1241-1248): overwrite title/year/copies, recompute `availableCopies`
as `newCopies - borrowedCount`, and, if a `bookIds` array exists without the
main id, unshift it. -/
def editBookUpdate (title : String) (year newCopies borrowedCount : Int) (b : Book) : Book :=
  { b with title := title, year := year, copies := newCopies,
           availableCopies := newCopies - borrowedCount,
           bookIds := match b.bookIds with
             | some ids => if ids.contains b.id then some ids
                           else some (b.id :: ids)
             | none => none }

/-- `handleEditBook` (script.js lines 1211-1257), data part (the
`requireAdmin` UI gate is authorization, not data logic).  The copies
fallback is the literal `1` (line 1218); the found record is updated by
`editBookUpdate`. -/
def handleEditBook (settings : Settings) (st : LibState) (originalIdRaw titleRaw : String)
    (yearRaw copiesRaw : Option Int) : Except EditErr LibState :=
  let originalId := (jsTrim originalIdRaw)
  let title := (jsTrim titleRaw)
  let year := jsOr yearRaw settings.defaultYear
  let newCopies := jsOr copiesRaw 1
  if originalId == "" then .error .noId
  else if title == "" then .error .noTitle
  else
    match st.books.find? (fun b => b.id == originalId) with
    | none => .error .notFound
    | some _ =>
      let borrowedCount := openLoansFor st.borrowedBooks originalId
      if newCopies < (borrowedCount : Int) then .error .tooFewCopies
      else
        let upd := editBookUpdate title year newCopies (borrowedCount : Int)
        .ok { st with books := updateFirst (fun b => b.id == originalId) upd st.books }

inductive DeleteErr
  | notFound
  | hasOpenLoans
  | cancelled
  deriving DecidableEq

/-- `deleteBook(bookId)` (script.js lines 1259-1281), data part: refuse when
absent or when open loans exist; the `confirm` dialog is the `confirmed`
parameter; on acceptance every book with that id is filtered out. -/
def deleteBook (st : LibState) (bookId : String) (confirmed : Bool) : Except DeleteErr LibState :=
  match st.books.find? (fun b => b.id == bookId) with
  | none => .error .notFound
  | some _ =>
    if 0 < openLoansFor st.borrowedBooks bookId then .error .hasOpenLoans
    else if !confirmed then .error .cancelled
    else .ok { st with books := st.books.filter (fun b => !(b.id == bookId)) }

/-- Accumulator of `processCSVData`'s row loop: the `bookMap` (a JS `Map`
keyed by title, modelled as an insertion-ordered association list) plus the
success/error tallies. -/
structure CSVAcc where
  bookMap : List (String × Book)
  successCount : Nat
  errorCount : Nat
  errors : List String
  deriving DecidableEq

/-- `Map.get` on the title-keyed book map. -/
def mapLookup (m : List (String × Book)) (k : String) : Option Book :=
  (m.find? (fun p => p.1 == k)).map (fun p => p.2)

/-- `Map.set` on the title-keyed book map: replace in place when the key is
present (JS `Map` keeps insertion order), append otherwise. -/
def mapSet (m : List (String × Book)) (k : String) (v : Book) : List (String × Book) :=
  if (m.find? (fun p => p.1 == k)).isSome then
    m.map (fun p => if p.1 == k then (k, v) else p)
  else m ++ [(k, v)]

/-- One iteration of the `processCSVData` row loop (script.js lines 429-479).
`i` is the loop index, used only in error messages (`i+5` is the original
CSV line number).  Note the per-row copies increment is the literal `1`
(line 458), and the duplicate check only looks inside the same title group. -/
def csvStep (settings : Settings) (acc : CSVAcc) (i : Nat) (row : List String) : CSVAcc :=
  if row.isEmpty || row.getD 0 "" == "" then acc
  else
    let id := jsTrim (row.getD 0 "")
    let title := jsTrim (row.getD 1 "")
    if !validCode id then
      { acc with errorCount := acc.errorCount + 1,
                 errors := acc.errors ++ [s!"第{i+5}行：書碼格式錯誤 ({id})"] }
    else if title == "" then acc
    else
      match mapLookup acc.bookMap title with
      | some existingBook =>
        if (existingBook.bookIds.getD []).contains id then
          -- same code already merged under this title group in this batch
          { acc with errorCount := acc.errorCount + 1,
                     errors := acc.errors ++ [s!"第{i+5}行：書碼重複 ({id})"] }
        else
          let copies : Int := 1
          let merged := { existingBook with
            copies := existingBook.copies + copies,
            availableCopies := existingBook.availableCopies + copies,
            bookIds := some ((existingBook.bookIds.getD []) ++ [id]) }
          { acc with bookMap := mapSet acc.bookMap title merged,
                     successCount := acc.successCount + 1 }
      | none =>
        let copies : Int := 1
        let newBook : Book :=
          { id := id, bookIds := some [id], title := title, genre := getGenreFromId id,
            year := settings.defaultYear, copies := copies, availableCopies := copies }
        { acc with bookMap := mapSet acc.bookMap title newBook,
                   successCount := acc.successCount + 1 }

/-- The `for` loop of `processCSVData`, with the loop index threaded
explicitly. -/
def csvRows (settings : Settings) : Nat → CSVAcc → List (List String) → CSVAcc
  | _, acc, [] => acc
  | i, acc, row :: rest => csvRows settings (i + 1) (csvStep settings acc i row) rest

/-- `processCSVData`'s loop result, starting from the empty book map. -/
def processCSVStats (settings : Settings) (csvData : List (List String)) : CSVAcc :=
  csvRows settings 0 { bookMap := [], successCount := 0, errorCount := 0, errors := [] } csvData

/-- `processCSVData(csvData)` (script.js lines 417-498): clear `this.books`,
run the merge loop, then push the map values.  `this.borrowedBooks` is left
untouched. -/
def processCSVData (settings : Settings) (csvData : List (List String)) (st : LibState) : LibState :=
  { st with books := (processCSVStats settings csvData).bookMap.map (fun p => p.2) }

/-- Result of the generic tabular import: the updated catalog plus the
tallies the method reports. -/
structure ImportOutcome where
  books : List Book
  successCount : Nat
  errorCount : Nat
  errors : List String
  deriving DecidableEq

/-- One iteration of the `processImportData` row loop (script.js lines
881-923).  The duplicate check is `this.books.find(book => book.id === id)`
— main ids only, not `bookIds` entries — and `this.books` is live, so rows
added earlier in the same batch are also compared against.  The optional
copies cell (`row[2] ? parseInt(row[2]) : defaultCopies`, then
`copies || defaultCopies`) is modelled with `parseIntJS`/`jsOr`. -/
def importStep (settings : Settings) (acc : ImportOutcome) (i : Nat) (row : List String) : ImportOutcome :=
  if row.isEmpty || row.getD 0 "" == "" then acc
  else
    let id := jsTrim (row.getD 0 "")
    let title := jsTrim (row.getD 1 "")
    let cell2 := row.getD 2 ""
    let copiesParsed : Option Int := if cell2 == "" then some settings.defaultCopies else parseIntJS cell2
    if !validCode id then
      { acc with errorCount := acc.errorCount + 1,
                 errors := acc.errors ++ [s!"第{i+1}行：書碼格式錯誤 ({id})"] }
    else if (acc.books.find? (fun b => b.id == id)).isSome then
      { acc with errorCount := acc.errorCount + 1,
                 errors := acc.errors ++ [s!"第{i+1}行：書碼重複 ({id})"] }
    else if title == "" then
      { acc with errorCount := acc.errorCount + 1,
                 errors := acc.errors ++ [s!"第{i+1}行：缺少書名"] }
    else
      let copies := jsOr copiesParsed settings.defaultCopies
      let newBook : Book :=
        { id := id, bookIds := none, title := title, genre := getGenreFromId id,
          year := settings.defaultYear, copies := copies, availableCopies := copies }
      { acc with books := acc.books ++ [newBook], successCount := acc.successCount + 1 }

/-- The `for` loop of `processImportData`, index threaded explicitly. -/
def importRows (settings : Settings) : Nat → ImportOutcome → List (List String) → ImportOutcome
  | _, acc, [] => acc
  | i, acc, row :: rest => importRows settings (i + 1) (importStep settings acc i row) rest

/-- `processImportData(data)` (script.js lines 875-936): skip the single
header row (the loop runs over indices `1..`), then run the row loop against
the live catalog. -/
def processImportData (settings : Settings) (data : List (List String)) (st : LibState) : ImportOutcome :=
  importRows settings 1 { books := st.books, successCount := 0, errorCount := 0, errors := [] }
    (data.drop 1)

/-- The option object of `pullFromGoogleSheets` (script.js line 293). -/
structure PullOptions where
  silent : Bool
  protectEmpty : Bool
  closeModal : Bool
  deriving DecidableEq

/-- The options every silent/automatic pull is invoked with
(`startAutoPull`, line 92, and `autoUpdateBooks`, line 1460). -/
def autoPullOptions : PullOptions :=
  { silent := true, protectEmpty := true, closeModal := false }

/-- The `data` member of a pull response; `none` in a field models "absent
or not an array" (the `Array.isArray` checks at line 311). -/
structure PullData where
  books : Option (List Book)
  borrowedBooks : Option (List Loan)
  deriving DecidableEq

/-- A parsed pull response body: the `ok` flag and the optional `data`
member (`result.data || {}`, line 310). -/
structure PullBody where
  ok : Bool
  data : Option PullData
  deriving DecidableEq

/-- Outcome of the `fetch` in `pullFromGoogleSheets`: a transport rejection,
or an HTTP response with status flag and JSON body (`none` = parse failure,
i.e. `result` is `null`). -/
inductive PullFetch
  | reject
  | resp (httpOk : Bool) (body : Option PullBody)
  deriving DecidableEq

/-- `pullFromGoogleSheets(options)` (script.js lines 292-349), data part.
Every abort path (missing URL, transport error, bad status, malformed body,
protect-empty, declined confirm) leaves the state unchanged; acceptance
replaces both collections with the remote payload.  `confirmOverwrite` is
the`confirm(...)` answer at line 322. -/
def pullFromGoogleSheets (opts : PullOptions) (hasUrl : Bool) (fetched : PullFetch)
    (confirmOverwrite : Bool) (st : LibState) : LibState :=
  if !hasUrl then st
  else
    match fetched with
    | .reject => st
    | .resp httpOk body =>
      match body with
      | none => st
      | some b =>
        if !httpOk || !b.ok then st
        else
          let data := b.data.getD { books := none, borrowedBooks := none }
          match data.books, data.borrowedBooks with
          | some bks, some lns =>
            if opts.protectEmpty && bks.isEmpty && !st.books.isEmpty then st
            else if bks.isEmpty && !st.books.isEmpty && !confirmOverwrite then st
            else { books := bks, borrowedBooks := lns }
          | _, _ => st

/-- Debounce constant `this.autoSyncDebounceMs` (script.js line 14). -/
def autoSyncDebounceMs : Nat := 1500

/-- Throttle constant `this.autoSyncMinIntervalMs` (script.js line 13). -/
def autoSyncMinIntervalMs : Nat := 30000

/-- Failure backoff applied at script.js line 126 (`Date.now() + 60000`). -/
def autoSyncBackoffMs : Nat := 60000

/-- The debounce-relevant slice of the singleton: the single pending
auto-sync timer handle (modelled by its deadline) and a count of how many
times its callback has invoked `autoPushToGoogleSheets`. -/
structure DebounceModel where
  autoSyncTimer : Option Nat
  autoPushRuns : Nat
  deriving DecidableEq

/-- `scheduleAutoSync()` (script.js lines 102-111): `clearTimeout` any
pending timer, then arm a fresh one for `autoSyncDebounceMs` from now.
Holding at most one deadline models the single `this.autoSyncTimer`
handle. -/
def scheduleAutoSync (now : Nat) (m : DebounceModel) : DebounceModel :=
  { m with autoSyncTimer := some (now + autoSyncDebounceMs) }

/-- The armed timer firing at time `now` (the `setTimeout` callback, lines
107-110): only a still-armed timer whose deadline has passed runs; it nulls
the handle and invokes `autoPushToGoogleSheets` once. -/
def autoSyncTimerFire (now : Nat) (m : DebounceModel) : DebounceModel :=
  match m.autoSyncTimer with
  | some d => if d ≤ now then { autoSyncTimer := none, autoPushRuns := m.autoPushRuns + 1 } else m
  | none => m

/-- The throttle/cooldown slice of the singleton (script.js lines 11-12). -/
structure SyncGate where
  autoSyncLastRunAt : Nat
  autoSyncCooldownUntil : Nat
  deriving DecidableEq

/-- Outcome of `pushToGoogleSheets({silent:true})` as observed by its
caller: the promise rejects only when `fetch` itself rejects (transport
failure); an HTTP response — 2xx or not, `ok:true` body or not — resolves
normally (script.js lines 251-290 contain no `throw` on those paths). -/
inductive PushFetch
  | reject
  | resp (httpOk : Bool) (bodyOk : Bool)
  deriving DecidableEq

/-- `autoPushToGoogleSheets()` (script.js lines 113-129): skip without a
URL, under cooldown, or within the minimum interval; otherwise stamp
`lastRunAt`, send the push, and on a rejected promise set the cooldown to
`failNow + 60000` (`failNow` is the `Date.now()` in the catch block).
The returned `Bool` is whether an HTTP request was sent. -/
def autoPushToGoogleSheets (g : SyncGate) (hasUrl : Bool) (now failNow : Nat)
    (outcome : PushFetch) : SyncGate × Bool :=
  if !hasUrl then (g, false)
  else if now < g.autoSyncCooldownUntil then (g, false)
  else if (now : Int) - (g.autoSyncLastRunAt : Int) < (autoSyncMinIntervalMs : Int) then (g, false)
  else
    let g1 := { g with autoSyncLastRunAt := now }
    match outcome with
    | .reject => ({ g1 with autoSyncCooldownUntil := failNow + autoSyncBackoffMs }, true)
    | .resp _ _ => (g1, true)

theorem updateFirst_of_forall_neg {p : α → Bool} (f : α → α) {l : List α}
    (h : ∀ a ∈ l, ¬ p a) : updateFirst p f l = l := by
  induction l with
  | nil => rfl
  | cons x xs ih =>
    have hx : ¬ p x := h x (by simp)
    simp only [updateFirst, if_neg hx]
    rw [ih (fun a ha => h a (by simp [ha]))]

theorem find?_append_of_forall_neg {p : α → Bool} {l₁ : List α} (l₂ : List α)
    (h : ∀ a ∈ l₁, ¬ p a) : (l₁ ++ l₂).find? p = l₂.find? p := by
  induction l₁ with
  | nil => rfl
  | cons x xs ih =>
    simp only [List.cons_append, List.find?_cons_of_neg _ (h x (by simp))]
    exact ih (fun a ha => h a (by simp [ha]))

theorem updateFirst_decomp (p : α → Bool) (f : α → α) {l : List α} {x : α}
    (h : l.find? p = some x) :
    ∃ l₁ l₂, l = l₁ ++ x :: l₂ ∧ (∀ a ∈ l₁, ¬ p a) ∧
      updateFirst p f l = l₁ ++ f x :: l₂ := by
  induction l with
  | nil => simp at h
  | cons y ys ih =>
    by_cases hy : p y
    · rw [List.find?_cons_of_pos _ hy, Option.some.injEq] at h
      subst h
      exact ⟨[], ys, rfl, by simp, by simp [updateFirst, hy]⟩
    · rw [List.find?_cons_of_neg _ hy] at h
      obtain ⟨l₁, l₂, hl, hneg, hupd⟩ := ih h
      refine ⟨y :: l₁, l₂, by simp [hl], ?_, by simp [updateFirst, hy, hupd]⟩
      intro a ha
      rcases List.mem_cons.mp ha with rfl | ha'
      · exact hy
      · exact hneg a ha'

theorem map_updateFirst (key : α → β) {p : α → Bool} {f : α → α}
    (hf : ∀ a, key (f a) = key a) (l : List α) :
    (updateFirst p f l).map key = l.map key := by
  induction l with
  | nil => rfl
  | cons x xs ih =>
    by_cases h : p x <;> simp [updateFirst, h, hf, ih]

theorem exists_mem_updateFirst_key {α : Type u} {β : Type v} (key : α → β)
    (p : α → Bool) (f : α → α)
    (hf : ∀ a, key (f a) = key a) {l : List α} {b : α} (hb : b ∈ l) :
    ∃ b' ∈ updateFirst p f l, key b' = key b := by
  have : key b ∈ (updateFirst p f l).map key := by
    rw [map_updateFirst key hf]
    exact List.mem_map_of_mem key hb
  obtain ⟨b', hb', hk⟩ := List.mem_map.mp this
  exact ⟨b', hb', hk⟩

theorem mem_updateFirst_unique_key {α : Type u} {β : Type v}
    {key : α → β} {l : List α} (hnd : (l.map key).Nodup)
    {p : α → Bool} {f : α → α} {x : α} (hfind : l.find? p = some x)
    (hp : ∀ a, p a = true ↔ key a = key x)
    {b' : α} (hb' : b' ∈ updateFirst p f l) :
    b' = f x ∨ (b' ∈ l ∧ key b' ≠ key x) := by
  obtain ⟨l₁, l₂, hl, hneg, hupd⟩ := updateFirst_decomp p f hfind
  rw [hupd] at hb'
  rcases List.mem_append.mp hb' with h₁ | h₂
  · refine Or.inr ⟨by simp [hl, List.mem_append.mpr (Or.inl h₁)], ?_⟩
    intro hk
    exact hneg b' h₁ ((hp b').mpr hk)
  · rcases List.mem_cons.mp h₂ with rfl | h₃
    · exact Or.inl rfl
    · refine Or.inr ⟨by simp [hl, h₃], ?_⟩
      intro hk
      have hnd' := hnd
      rw [hl, List.map_append, List.map_cons, List.nodup_append] at hnd'
      have hxl₂ : key x ∉ List.map key l₂ := by
        have hcons := hnd'.2.1
        rw [List.nodup_cons] at hcons
        exact hcons.1
      exact hxl₂ (hk ▸ List.mem_map_of_mem key h₃)

theorem openLoansFor_append (l₁ l₂ : List Loan) (c : String) :
    openLoansFor (l₁ ++ l₂) c = openLoansFor l₁ c + openLoansFor l₂ c := by
  simp [openLoansFor, List.filter_append]

theorem openLoansFor_cons (x : Loan) (l : List Loan) (c : String) :
    openLoansFor (x :: l) c =
      (if x.bookId = c ∧ x.returnedAt = none then 1 else 0) + openLoansFor l c := by
  by_cases h1 : x.bookId = c <;> by_cases h2 : x.returnedAt = none <;>
    simp [openLoansFor, List.filter_cons, h1, h2, Option.isNone_iff_eq_none, Nat.add_comm]

theorem openLoansFor_singleton (x : Loan) (c : String) :
    openLoansFor [x] c = if x.bookId = c ∧ x.returnedAt = none then 1 else 0 := by
  rw [openLoansFor_cons]
  simp [openLoansFor]

theorem openLoansFor_pos_iff (l : List Loan) (c : String) :
    0 < openLoansFor l c ↔ ∃ x ∈ l, x.bookId = c ∧ x.returnedAt = none := by
  induction l with
  | nil => simp [openLoansFor]
  | cons x xs ih =>
    rw [openLoansFor_cons]
    by_cases h1 : x.bookId = c ∧ x.returnedAt = none
    · simp [h1]
    · simp only [if_neg h1, Nat.zero_add, ih, List.mem_cons]
      constructor
      · rintro ⟨y, hy, hc⟩
        exact ⟨y, Or.inr hy, hc⟩
      · rintro ⟨y, (rfl | hy), hc⟩
        · exact absurd hc h1
        · exact ⟨y, hy, hc⟩

/-- The spec's per-book invariant: `0 <= availableCopies <= copies` and
`availableCopies = copies - openLoansFor(id)`. -/
def bookOk (loans : List Loan) (b : Book) : Prop :=
  0 ≤ b.availableCopies ∧ b.availableCopies ≤ b.copies ∧
    b.availableCopies = b.copies - (openLoansFor loans b.id : Int)

/-- Every catalog record satisfies `bookOk` against the ledger. -/
def InvBooks (st : LibState) : Prop := ∀ b ∈ st.books, bookOk st.borrowedBooks b

/-- Main book ids are pairwise distinct. -/
def InvIds (st : LibState) : Prop := (st.books.map Book.id).Nodup

/-- Every open loan references an existing catalog record. -/
def InvLoans (st : LibState) : Prop :=
  ∀ l ∈ st.borrowedBooks, l.returnedAt = none → ∃ b ∈ st.books, b.id = l.bookId

/-- The inductive invariant carried through the local operations. -/
def StateInv (st : LibState) : Prop := InvIds st ∧ InvLoans st ∧ InvBooks st

theorem stateInv_borrowBook {settings : Settings} {user : Option User} {st st' : LibState}
    {bookId : String} {now : Nat} (hInv : StateInv st)
    (h : borrowBook settings user st bookId now = .ok st') : StateInv st' := by
  obtain ⟨hIds, hLoans, hBooks⟩ := hInv
  match user with
  | none => simp [borrowBook] at h
  | some u =>
    rw [borrowBook] at h
    split at h
    · simp at h
    · split at h
      next => simp at h
      next book hfind =>
        split at h
        · simp at h
        · split at h
          · simp at h
          · rw [Except.ok.injEq] at h
            subst h
            next hAvail _ =>
            have hmem : book ∈ st.books := List.mem_of_find?_eq_some hfind
            have hbid : book.id = bookId := by
              have := List.find?_some hfind
              simpa using this
            have hfId : ∀ b : Book,
                ({ b with availableCopies := b.availableCopies - 1 } : Book).id = b.id :=
              fun b => rfl
            have hAvailPos : 0 < book.availableCopies := by omega
            refine ⟨?_, ?_, ?_⟩
            · show ((updateFirst _ _ st.books).map Book.id).Nodup
              rw [map_updateFirst Book.id hfId]
              exact hIds
            · intro l hl hopen
              rcases List.mem_append.mp hl with hl₁ | hl₂
              · obtain ⟨b, hb, hbid'⟩ := hLoans l hl₁ hopen
                obtain ⟨b', hb', hk⟩ := exists_mem_updateFirst_key Book.id
                  (fun b : Book => b.id == bookId)
                  (fun b : Book => { b with availableCopies := b.availableCopies - 1 }) hfId hb
                exact ⟨b', hb', hk.trans hbid'⟩
              · have : l = mkBorrowRecord settings u book bookId now := by simpa using hl₂
                subst this
                obtain ⟨b', hb', hk⟩ := exists_mem_updateFirst_key Book.id
                  (fun b : Book => b.id == bookId)
                  (fun b : Book => { b with availableCopies := b.availableCopies - 1 }) hfId hmem
                exact ⟨b', hb', by simp [mkBorrowRecord, hk, hbid]⟩
            · intro b' hb'
              have hp : ∀ b : Book, ((fun b : Book => b.id == bookId) b = true) ↔
                  Book.id b = Book.id book := by
                intro b
                simp [hbid]
              rcases mem_updateFirst_unique_key hIds hfind hp hb' with rfl | ⟨hbmem, hbne⟩
              · obtain ⟨h1, h2, h3⟩ := hBooks book hmem
                have hcount : openLoansFor
                    (st.borrowedBooks ++ [mkBorrowRecord settings u book bookId now]) book.id
                    = openLoansFor st.borrowedBooks book.id + 1 := by
                  rw [openLoansFor_append, openLoansFor_singleton, if_pos ⟨hbid.symm, rfl⟩]
                refine ⟨?_, ?_, ?_⟩
                · show (0 : Int) ≤ book.availableCopies - 1
                  omega
                · show book.availableCopies - 1 ≤ book.copies
                  omega
                · show book.availableCopies - 1 = book.copies - (openLoansFor
                    (st.borrowedBooks ++ [mkBorrowRecord settings u book bookId now]) book.id : Int)
                  rw [hcount]
                  push_cast
                  omega
              · obtain ⟨h1, h2, h3⟩ := hBooks b' hbmem
                have hcount : openLoansFor
                    (st.borrowedBooks ++ [mkBorrowRecord settings u book bookId now]) b'.id
                    = openLoansFor st.borrowedBooks b'.id := by
                  rw [openLoansFor_append, openLoansFor_singleton, if_neg, Nat.add_zero]
                  intro hc
                  exact hbne (hc.1.symm.trans hbid.symm)
                exact ⟨h1, h2, by rw [hcount]; exact h3⟩

theorem stateInv_returnBook {st st' : LibState} {borrowId : String} {now : Nat}
    (hInv : StateInv st) (h : returnBook st borrowId now = .ok st') : StateInv st' := by
  obtain ⟨hIds, hLoans, hBooks⟩ := hInv
  rw [returnBook] at h
  split at h
  next => simp at h
  next L hfindL =>
    split at h
    next hRet => simp at h
    next hRet =>
      rw [Except.ok.injEq] at h
      subst h
      have hopenL : L.returnedAt = none := by
        cases hL : L.returnedAt with
        | none => rfl
        | some t => rw [hL] at hRet; simp at hRet
      obtain ⟨m₁, m₂, hl, hlneg, hlupd⟩ :=
        updateFirst_decomp (fun b : Loan => b.id == borrowId)
          (fun b : Loan => { b with returnedAt := some now }) hfindL
      have hfIdL : ∀ a : Loan, ({ a with returnedAt := some now } : Loan).id = a.id :=
        fun a => rfl
      have hfIdB : ∀ b : Book,
          ({ b with availableCopies := b.availableCopies + 1 } : Book).id = b.id :=
        fun b => rfl
      have hcount : ∀ c, openLoansFor st.borrowedBooks c =
          openLoansFor (updateFirst (fun b => b.id == borrowId)
            (fun b => { b with returnedAt := some now }) st.borrowedBooks) c
          + (if L.bookId = c then 1 else 0) := by
        intro c
        rw [hlupd, hl, openLoansFor_append, openLoansFor_append,
            openLoansFor_cons, openLoansFor_cons]
        by_cases hc : L.bookId = c <;> simp [hc, hopenL] <;> omega
      refine ⟨?_, ?_, ?_⟩
      · show ((updateFirst _ _ st.books).map Book.id).Nodup
        rw [map_updateFirst Book.id hfIdB]
        exact hIds
      · intro l hl' hopen
        rw [hlupd] at hl'
        have hlmem : l ∈ st.borrowedBooks := by
          rcases List.mem_append.mp hl' with h₁ | h₂
          · exact hl ▸ List.mem_append.mpr (Or.inl h₁)
          · rcases List.mem_cons.mp h₂ with rfl | h₃
            · simp at hopen
            · exact hl ▸ List.mem_append.mpr (Or.inr (List.mem_cons.mpr (Or.inr h₃)))
        obtain ⟨b, hb, hbid'⟩ := hLoans l hlmem hopen
        obtain ⟨b', hb', hk⟩ := exists_mem_updateFirst_key Book.id
          (fun b : Book => b.id == L.bookId)
          (fun b : Book => { b with availableCopies := b.availableCopies + 1 }) hfIdB hb
        exact ⟨b', hb', hk.trans hbid'⟩
      · intro b' hb'
        cases hfindB : st.books.find? (fun b => b.id == L.bookId) with
        | none =>
          have hnone : ∀ b ∈ st.books, ¬ (fun b : Book => b.id == L.bookId) b :=
            List.find?_eq_none.mp hfindB
          rw [updateFirst_of_forall_neg _ hnone] at hb'
          obtain ⟨h1, h2, h3⟩ := hBooks b' hb'
          have hne : L.bookId ≠ b'.id := by
            intro hc
            exact hnone b' hb' (by simp [hc])
          refine ⟨h1, h2, ?_⟩
          have := hcount b'.id
          rw [if_neg hne, Nat.add_zero] at this
          rw [← this]
          exact h3
        | some bk =>
          have hbkmem : bk ∈ st.books := List.mem_of_find?_eq_some hfindB
          have hbkid : bk.id = L.bookId := by
            have := List.find?_some hfindB
            simpa using this
          have hp : ∀ b : Book, ((fun b : Book => b.id == L.bookId) b = true) ↔
              Book.id b = Book.id bk := by
            intro b
            simp [hbkid]
          rcases mem_updateFirst_unique_key hIds hfindB hp hb' with rfl | ⟨hbmem, hbne⟩
          · obtain ⟨h1, h2, h3⟩ := hBooks bk hbkmem
            have hc := hcount bk.id
            rw [if_pos hbkid.symm] at hc
            refine ⟨?_, ?_, ?_⟩
            · show (0 : Int) ≤ bk.availableCopies + 1
              omega
            · show bk.availableCopies + 1 ≤ bk.copies
              omega
            · show bk.availableCopies + 1 = bk.copies - (openLoansFor
                (updateFirst (fun b => b.id == borrowId)
                  (fun b => { b with returnedAt := some now }) st.borrowedBooks) bk.id : Int)
              omega
          · obtain ⟨h1, h2, h3⟩ := hBooks b' hbmem
            have hc := hcount b'.id
            have hne : L.bookId ≠ b'.id := fun hcc => hbne (hcc ▸ hbkid).symm
            rw [if_neg hne, Nat.add_zero] at hc
            refine ⟨h1, h2, ?_⟩
            rw [← hc]
            exact h3

theorem stateInv_handleAddBook {settings : Settings} {st st' : LibState}
    {idRaw titleRaw : String} {yearRaw copiesRaw : Option Int}
    (hcopies : 0 ≤ jsOr copiesRaw settings.defaultCopies) (hInv : StateInv st)
    (h : handleAddBook settings st idRaw titleRaw yearRaw copiesRaw = .ok st') :
    StateInv st' := by
  obtain ⟨hIds, hLoans, hBooks⟩ := hInv
  simp only [handleAddBook] at h
  split at h
  next => simp at h
  split at h
  next hdup => simp at h
  next hdup =>
  split at h
  next => simp at h
  next =>
  rw [Except.ok.injEq] at h
  subst h
  have hfresh : ∀ b ∈ st.books, b.id ≠ (jsTrim idRaw) := by
    intro b hb hc
    have hnone : st.books.find? (fun b => b.id == (jsTrim idRaw)) = none := by
      cases hopt : st.books.find? (fun b => b.id == (jsTrim idRaw)) with
      | none => rfl
      | some x => rw [hopt] at hdup; simp at hdup
    exact absurd (by simp [hc]) (List.find?_eq_none.mp hnone b hb)
  refine ⟨?_, ?_, ?_⟩
  · show ((st.books ++ [_]).map Book.id).Nodup
    rw [List.map_append]
    refine List.Nodup.append hIds (by simp) ?_
    rw [List.disjoint_left]
    intro a ha hc
    obtain ⟨b, hb, hbid⟩ := List.mem_map.mp ha
    simp only [List.map_cons, List.map_nil, List.mem_singleton] at hc
    exact hfresh b hb (hbid.symm ▸ hc)
  · intro l hl hopen
    obtain ⟨b, hb, hbid⟩ := hLoans l hl hopen
    exact ⟨b, List.mem_append.mpr (Or.inl hb), hbid⟩
  · intro b' hb'
    rcases List.mem_append.mp hb' with hmem | hnew
    · exact hBooks b' hmem
    · have hb'eq := List.mem_singleton.mp hnew
      subst hb'eq
      have hnoloan : openLoansFor st.borrowedBooks (jsTrim idRaw) = 0 := by
        by_contra hpos
        obtain ⟨x, hx, hxid, hxopen⟩ :=
          (openLoansFor_pos_iff _ _).mp (Nat.pos_of_ne_zero hpos)
        obtain ⟨b, hb, hbid⟩ := hLoans x hx hxopen
        exact hfresh b hb (hbid.trans hxid)
      refine ⟨hcopies, le_refl _, ?_⟩
      show jsOr copiesRaw settings.defaultCopies =
        jsOr copiesRaw settings.defaultCopies - (openLoansFor st.borrowedBooks (jsTrim idRaw) : Int)
      rw [hnoloan]
      simp

theorem stateInv_handleEditBook {settings : Settings} {st st' : LibState}
    {originalIdRaw titleRaw : String} {yearRaw copiesRaw : Option Int}
    (hInv : StateInv st)
    (h : handleEditBook settings st originalIdRaw titleRaw yearRaw copiesRaw = .ok st') :
    StateInv st' := by
  obtain ⟨hIds, hLoans, hBooks⟩ := hInv
  simp only [handleEditBook] at h
  split at h
  next => simp at h
  split at h
  next => simp at h
  split at h
  next => simp at h
  next bk hfind =>
  split at h
  next => simp at h
  next hcnt =>
  rw [Except.ok.injEq] at h
  subst h
  have hbkid : bk.id = (jsTrim originalIdRaw) := by
    have := List.find?_some hfind
    simpa using this
  have hfId : ∀ b : Book,
      Book.id (editBookUpdate (jsTrim titleRaw) (jsOr yearRaw settings.defaultYear)
        (jsOr copiesRaw 1) (openLoansFor st.borrowedBooks (jsTrim originalIdRaw) : Int) b) = b.id :=
    fun b => rfl
  refine ⟨?_, ?_, ?_⟩
  · show ((updateFirst _ _ st.books).map Book.id).Nodup
    rw [map_updateFirst Book.id hfId]
    exact hIds
  · intro l hl hopen
    obtain ⟨b, hb, hbid⟩ := hLoans l hl hopen
    obtain ⟨b', hb', hk⟩ := exists_mem_updateFirst_key Book.id
      (fun b : Book => b.id == (jsTrim originalIdRaw))
      (editBookUpdate (jsTrim titleRaw) (jsOr yearRaw settings.defaultYear)
        (jsOr copiesRaw 1) (openLoansFor st.borrowedBooks (jsTrim originalIdRaw) : Int)) hfId hb
    exact ⟨b', hb', hk.trans hbid⟩
  · intro b' hb'
    have hp : ∀ b : Book, ((fun b : Book => b.id == (jsTrim originalIdRaw)) b = true) ↔
        Book.id b = Book.id bk := by
      intro b
      simp [hbkid]
    rcases mem_updateFirst_unique_key hIds hfind hp hb' with rfl | ⟨hbmem, _⟩
    · have hcnt' : (openLoansFor st.borrowedBooks (jsTrim originalIdRaw) : Int) ≤ jsOr copiesRaw 1 := by
        omega
      refine ⟨?_, ?_, ?_⟩
      · show (0 : Int) ≤ jsOr copiesRaw 1 -
          (openLoansFor st.borrowedBooks (jsTrim originalIdRaw) : Int)
        omega
      · show jsOr copiesRaw 1 -
          (openLoansFor st.borrowedBooks (jsTrim originalIdRaw) : Int) ≤ jsOr copiesRaw 1
        omega
      · show jsOr copiesRaw 1 -
          (openLoansFor st.borrowedBooks (jsTrim originalIdRaw) : Int) =
          jsOr copiesRaw 1 - (openLoansFor st.borrowedBooks bk.id : Int)
        rw [hbkid]
    · exact hBooks b' hbmem

theorem stateInv_deleteBook {st st' : LibState} {bookId : String} {confirmed : Bool}
    (hInv : StateInv st) (h : deleteBook st bookId confirmed = .ok st') : StateInv st' := by
  obtain ⟨hIds, hLoans, hBooks⟩ := hInv
  rw [deleteBook] at h
  split at h
  next => simp at h
  next bk hfind =>
  split at h
  next => simp at h
  next hopen =>
  split at h
  next => simp at h
  next =>
  rw [Except.ok.injEq] at h
  subst h
  have hzero : openLoansFor st.borrowedBooks bookId = 0 := by omega
  refine ⟨?_, ?_, ?_⟩
  · show ((st.books.filter _).map Book.id).Nodup
    exact hIds.sublist ((List.filter_sublist _).map Book.id)
  · intro l hl hopen'
    obtain ⟨b, hb, hbid⟩ := hLoans l hl hopen'
    have hne : l.bookId ≠ bookId := by
      intro hc
      have : 0 < openLoansFor st.borrowedBooks bookId :=
        (openLoansFor_pos_iff _ _).mpr ⟨l, hl, hc, hopen'⟩
      omega
    refine ⟨b, List.mem_filter.mpr ⟨hb, ?_⟩, hbid⟩
    simp [hbid, hne]
  · intro b' hb'
    exact hBooks b' (List.mem_filter.mp hb').1

/-- States reachable from the empty initial state by the six local data
operations of the source (borrow, return, add, edit, delete, CSV import),
with arbitrary inputs. -/
inductive ReachableOps (settings : Settings) : LibState → Prop
  | init : ReachableOps settings { books := [], borrowedBooks := [] }
  | borrow (st st' : LibState) (user : Option User) (bookId : String) (now : Nat) :
      ReachableOps settings st → borrowBook settings user st bookId now = .ok st' →
      ReachableOps settings st'
  | ret (st st' : LibState) (borrowId : String) (now : Nat) :
      ReachableOps settings st → returnBook st borrowId now = .ok st' →
      ReachableOps settings st'
  | add (st st' : LibState) (idRaw titleRaw : String) (yearRaw copiesRaw : Option Int) :
      ReachableOps settings st →
      handleAddBook settings st idRaw titleRaw yearRaw copiesRaw = .ok st' →
      ReachableOps settings st'
  | edit (st st' : LibState) (originalIdRaw titleRaw : String) (yearRaw copiesRaw : Option Int) :
      ReachableOps settings st →
      handleEditBook settings st originalIdRaw titleRaw yearRaw copiesRaw = .ok st' →
      ReachableOps settings st'
  | del (st st' : LibState) (bookId : String) (confirmed : Bool) :
      ReachableOps settings st → deleteBook st bookId confirmed = .ok st' →
      ReachableOps settings st'
  | csvImport (st st' : LibState) (rows : List (List String)) :
      ReachableOps settings st → processCSVData settings rows st = st' →
      ReachableOps settings st'

/-- States reachable from the empty initial state by borrow, return, add,
edit and delete only (no CSV import), where each add-book copies input — the
`parseInt` of a numeric form field — is nonnegative. -/
inductive ReachableCore (settings : Settings) : LibState → Prop
  | init : ReachableCore settings { books := [], borrowedBooks := [] }
  | borrow (st st' : LibState) (user : Option User) (bookId : String) (now : Nat) :
      ReachableCore settings st → borrowBook settings user st bookId now = .ok st' →
      ReachableCore settings st'
  | ret (st st' : LibState) (borrowId : String) (now : Nat) :
      ReachableCore settings st → returnBook st borrowId now = .ok st' →
      ReachableCore settings st'
  | add (st st' : LibState) (idRaw titleRaw : String) (yearRaw copiesRaw : Option Int) :
      ReachableCore settings st → 0 ≤ jsOr copiesRaw settings.defaultCopies →
      handleAddBook settings st idRaw titleRaw yearRaw copiesRaw = .ok st' →
      ReachableCore settings st'
  | edit (st st' : LibState) (originalIdRaw titleRaw : String) (yearRaw copiesRaw : Option Int) :
      ReachableCore settings st →
      handleEditBook settings st originalIdRaw titleRaw yearRaw copiesRaw = .ok st' →
      ReachableCore settings st'
  | del (st st' : LibState) (bookId : String) (confirmed : Bool) :
      ReachableCore settings st → deleteBook st bookId confirmed = .ok st' →
      ReachableCore settings st'

theorem stateInv_of_reachableCore {settings : Settings} {st : LibState}
    (h : ReachableCore settings st) : StateInv st := by
  induction h with
  | init =>
    refine ⟨by simp [InvIds], ?_, ?_⟩
    · intro l hl
      simp at hl
    · intro b hb
      simp at hb
  | borrow st st' user bookId now _ hok ih => exact stateInv_borrowBook ih hok
  | ret st st' borrowId now _ hok ih => exact stateInv_returnBook ih hok
  | add st st' idRaw titleRaw yearRaw copiesRaw _ hc hok ih =>
    exact stateInv_handleAddBook hc ih hok
  | edit st st' originalIdRaw titleRaw yearRaw copiesRaw _ hok ih =>
    exact stateInv_handleEditBook ih hok
  | del st st' bookId confirmed _ hok ih => exact stateInv_deleteBook ih hok

/-- C1 (amended): every state reachable from the empty initial state by
borrow, return, add-book (with a nonnegative parsed copies input), edit-book
and delete-book satisfies the book invariant: `0 ≤ availableCopies ≤ copies`
and `availableCopies = copies - openLoansFor(id)` for every book record.
The CSV import listed in the original claim is excluded: it rebuilds the
catalog with `availableCopies := copies` while keeping the loan ledger, so
the equation can fail afterwards (see the counterexample). -/
theorem C1_invariant_core (settings : Settings) (st : LibState)
    (h : ReachableCore settings st) (b : Book) (hb : b ∈ st.books) :
    0 ≤ b.availableCopies ∧ b.availableCopies ≤ b.copies ∧
      b.availableCopies = b.copies - (openLoansFor st.borrowedBooks b.id : Int) :=
  (stateInv_of_reachableCore h).2.2 b hb

/-- Catalog state after adding book `A0001` (title `T`) to the empty state. -/
def c1St1 : LibState :=
  { books := [{ id := "A0001", bookIds := none, title := "T", genre := "繪本",
                year := 2024, copies := 1, availableCopies := 1 }],
    borrowedBooks := [] }

/-- The loan created by alice borrowing `A0001` at time 100 under the
default 14-day loan period. -/
def c1Loan : Loan :=
  { id := "100", bookId := "A0001", bookTitle := "T", userId := "alice",
    borrowDate := 100, dueDate := 1209600100, returnedAt := none }

/-- The `A0001` record while alice's loan is open. -/
def c1WitBook : Book :=
  { id := "A0001", bookIds := none, title := "T", genre := "繪本",
    year := 2024, copies := 1, availableCopies := 0 }

/-- State after add + borrow. -/
def c1St2 : LibState :=
  { books := [c1WitBook], borrowedBooks := [c1Loan] }

/-- State after add + borrow + CSV re-import of the single row
`A0001,T`: availability is reset to 1 although alice's loan is still open. -/
def c1St3 : LibState :=
  { books := [{ id := "A0001", bookIds := some ["A0001"], title := "T", genre := "繪本",
                year := 2024, copies := 1, availableCopies := 1 }],
    borrowedBooks := [c1Loan] }

/-- The `A0001` record after alice also returns her loan post-import:
`availableCopies = 2` exceeds `copies = 1`. -/
def c1ExBook : Book :=
  { id := "A0001", bookIds := some ["A0001"], title := "T", genre := "繪本",
    year := 2024, copies := 1, availableCopies := 2 }

/-- State after add + borrow + CSV import + return. -/
def c1ExState : LibState :=
  { books := [c1ExBook],
    borrowedBooks := [{ id := "100", bookId := "A0001", bookTitle := "T", userId := "alice",
                        borrowDate := 100, dueDate := 1209600100, returnedAt := some 200 }] }

/-- C1, counterexample to the claim as stated: the state reached by
add(`A0001`), borrow by alice, CSV import of the single row `A0001,T`, then
return of alice's loan is reachable by the claim's listed operations, yet its
book record has `availableCopies = 2 > copies = 1` and
`availableCopies ≠ copies - openLoansFor(id)`. -/
theorem C1_counterexample :
    ReachableOps defaultSettings c1ExState ∧ c1ExBook ∈ c1ExState.books ∧
      ¬(0 ≤ c1ExBook.availableCopies ∧ c1ExBook.availableCopies ≤ c1ExBook.copies ∧
        c1ExBook.availableCopies = c1ExBook.copies -
          (openLoansFor c1ExState.borrowedBooks c1ExBook.id : Int)) := by
  refine ⟨?_, by decide, by decide⟩
  refine ReachableOps.ret c1St3 c1ExState "100" 200 ?_ (by decide)
  refine ReachableOps.csvImport c1St2 c1St3 [["A0001", "T"]] ?_ (by decide)
  refine ReachableOps.borrow c1St1 c1St2
    (some { username := "alice", role := "student" }) "A0001" 100 ?_ (by decide)
  exact ReachableOps.add { books := [], borrowedBooks := [] } c1St1 "A0001" "T" none none
    ReachableOps.init (by decide)

/-- C1, witness: the amended invariant theorem applied to the concrete
reachable state add(`A0001`) then borrow by alice. -/
theorem C1_invariant_core_witness :
    0 ≤ c1WitBook.availableCopies ∧ c1WitBook.availableCopies ≤ c1WitBook.copies ∧
      c1WitBook.availableCopies = c1WitBook.copies -
        (openLoansFor c1St2.borrowedBooks c1WitBook.id : Int) :=
  C1_invariant_core defaultSettings c1St2
    (ReachableCore.borrow c1St1 c1St2 (some { username := "alice", role := "student" })
      "A0001" 100
      (ReachableCore.add { books := [], borrowedBooks := [] } c1St1 "A0001" "T" none none
        ReachableCore.init (by decide) (by decide))
      (by decide))
    c1WitBook (by decide)

theorem updateFirst_append_of_forall_neg {p : α → Bool} (f : α → α) {l₁ : List α}
    (l₂ : List α) (h : ∀ a ∈ l₁, ¬ p a) :
    updateFirst p f (l₁ ++ l₂) = l₁ ++ updateFirst p f l₂ := by
  induction l₁ with
  | nil => rfl
  | cons x xs ih =>
    simp only [List.cons_append, updateFirst, if_neg (h x (by simp))]
    exact congrArg (x :: ·) (ih (fun a ha => h a (by simp [ha])))

/-- The availability counter displayed for a code: the first matching
record's `availableCopies` (`this.books.find(b => b.id === code)`). -/
def findAvail (books : List Book) (code : String) : Option Int :=
  (books.find? (fun b => b.id == code)).map (fun b => b.availableCopies)

theorem find?_updateFirst_found {books : List Book} {code : String} {book : Book}
    (f : Book → Book) (hf : ∀ b, (f b).id = b.id)
    (hfind : books.find? (fun b => b.id == code) = some book) :
    (updateFirst (fun b => b.id == code) f books).find? (fun b => b.id == code)
      = some (f book) := by
  obtain ⟨l₁, l₂, _, hneg, hupd⟩ := updateFirst_decomp _ f hfind
  rw [hupd, find?_append_of_forall_neg _ hneg]
  have hp : ((fun b : Book => b.id == code) (f book)) = true := by
    have hpb := List.find?_some hfind
    simpa [hf] using hpb
  exact List.find?_cons_of_pos _ hp

theorem borrowBook_ok_inv {settings : Settings} {u : User} {st st₁ : LibState}
    {bookId : String} {now : Nat}
    (hok : borrowBook settings (some u) st bookId now = .ok st₁) :
    ∃ book, st.books.find? (fun b => b.id == bookId) = some book ∧
      st₁ = { books := updateFirst (fun b => b.id == bookId)
                (fun b => { b with availableCopies := b.availableCopies - 1 }) st.books,
              borrowedBooks := st.borrowedBooks ++ [mkBorrowRecord settings u book bookId now] } := by
  rw [borrowBook] at hok
  split at hok
  · simp at hok
  · split at hok
    next => simp at hok
    next book hfind =>
      split at hok
      · simp at hok
      · split at hok
        · simp at hok
        · rw [Except.ok.injEq] at hok
          exact ⟨book, hfind, hok.symm⟩

/-- C2: with a logged-in, non-guest-blocked user and an existing book,
borrow fails with `noCopies` when `availableCopies ≤ 0` (this check comes
first), fails with `alreadyBorrowed` when copies remain but the user already
holds an open loan on that book, and otherwise succeeds: exactly one loan
record — open, for this `(bookId, userId)` pair — is appended, the book's
`availableCopies` drops by exactly one, and the open-loan count for the code
rises by exactly one. -/
theorem C2_borrow_guards (settings : Settings) (u : User) (st : LibState)
    (bookId : String) (now : Nat) (book : Book)
    (hguest : (u.role == "guest" && !settings.guestBorrow) = false)
    (hfind : st.books.find? (fun b => b.id == bookId) = some book) :
    (book.availableCopies ≤ 0 →
      borrowBook settings (some u) st bookId now = .error .noCopies) ∧
    (0 < book.availableCopies →
      (∃ l ∈ st.borrowedBooks, l.bookId = bookId ∧ l.userId = u.username ∧ l.returnedAt = none) →
      borrowBook settings (some u) st bookId now = .error .alreadyBorrowed) ∧
    (0 < book.availableCopies →
      (¬ ∃ l ∈ st.borrowedBooks, l.bookId = bookId ∧ l.userId = u.username ∧ l.returnedAt = none) →
      ∃ st', borrowBook settings (some u) st bookId now = .ok st' ∧
        st'.borrowedBooks = st.borrowedBooks ++ [mkBorrowRecord settings u book bookId now] ∧
        (mkBorrowRecord settings u book bookId now).bookId = bookId ∧
        (mkBorrowRecord settings u book bookId now).userId = u.username ∧
        (mkBorrowRecord settings u book bookId now).returnedAt = none ∧
        findAvail st'.books bookId = some (book.availableCopies - 1) ∧
        openLoansFor st'.borrowedBooks bookId = openLoansFor st.borrowedBooks bookId + 1) := by
  refine ⟨?_, ?_, ?_⟩
  · intro h
    rw [borrowBook]
    simp only [hguest, Bool.false_eq_true, if_false, hfind, if_pos h]
  · intro h1 hopen
    have hsome : (st.borrowedBooks.find? (fun b =>
        b.bookId == bookId && b.userId == u.username && b.returnedAt.isNone)).isSome := by
      rw [List.find?_isSome]
      obtain ⟨l, hl, ha, hb, hc⟩ := hopen
      exact ⟨l, hl, by simp [ha, hb, hc]⟩
    rw [borrowBook]
    simp only [hguest, Bool.false_eq_true, if_false, hfind, if_neg (by omega : ¬ book.availableCopies ≤ 0)]
    rw [if_pos hsome]
  · intro h1 hnopen
    have hnone : (st.borrowedBooks.find? (fun b =>
        b.bookId == bookId && b.userId == u.username && b.returnedAt.isNone)) = none := by
      rw [List.find?_eq_none]
      intro x hx hpx
      simp only [Bool.and_eq_true, beq_iff_eq, Option.isNone_iff_eq_none] at hpx
      exact hnopen ⟨x, hx, hpx.1.1, hpx.1.2, hpx.2⟩
    refine ⟨LibState.mk (updateFirst (fun b => b.id == bookId) (fun b => { b with availableCopies := b.availableCopies - 1 }) st.books) (st.borrowedBooks ++ [mkBorrowRecord settings u book bookId now]), ?_, rfl, rfl, rfl, rfl, ?_, ?_⟩
    · rw [borrowBook]
      simp only [hguest, Bool.false_eq_true, if_false, hfind,
        if_neg (by omega : ¬ book.availableCopies ≤ 0), hnone]
      rfl
    · show findAvail (updateFirst (fun b => b.id == bookId)
        (fun b => { b with availableCopies := b.availableCopies - 1 }) st.books) bookId = _
      rw [findAvail, find?_updateFirst_found
        (fun b => { b with availableCopies := b.availableCopies - 1 }) (fun b => rfl) hfind]
      rfl
    · show openLoansFor (st.borrowedBooks ++ [mkBorrowRecord settings u book bookId now]) bookId = _
      rw [openLoansFor_append, openLoansFor_singleton, if_pos ⟨rfl, rfl⟩]

/-- The one-book state (`A0001`, no copies left) used to witness C2. -/
def c2Book : Book :=
  { id := "A0001", bookIds := none, title := "T", genre := "繪本",
    year := 2024, copies := 1, availableCopies := 0 }

/-- State holding `c2Book` and an empty ledger. -/
def c2St : LibState := { books := [c2Book], borrowedBooks := [] }

/-- C2, witness: borrowing `A0001` with zero available copies fails with
`noCopies`. -/
theorem C2_borrow_guards_witness :
    borrowBook defaultSettings (some { username := "alice", role := "student" })
      c2St "A0001" 5 = .error .noCopies :=
  (C2_borrow_guards defaultSettings { username := "alice", role := "student" }
    c2St "A0001" 5 c2Book (by decide) (by decide)).1 (by decide)

theorem updateFirst_updateFirst {p : α → Bool} {f g : α → α} {l : List α} {x : α}
    (hfind : l.find? p = some x) (hpf : p (f x) = true) (hgf : g (f x) = x) :
    updateFirst p g (updateFirst p f l) = l := by
  obtain ⟨l₁, l₂, hl, hneg, hupd⟩ := updateFirst_decomp p f hfind
  rw [hupd, updateFirst_append_of_forall_neg _ _ hneg]
  simp only [updateFirst, hpf, if_true, hgf]
  exact hl.symm

/-- C3: if borrow succeeds at time `now` — producing the loan with id
`toString now` — in a state whose ledger does not already contain a record
with that id (the spec's loan-id uniqueness invariant), then returning that
loan id immediately restores the catalog exactly as it was before the
borrow (in particular the book's `availableCopies`), stamps the loan's
`returnedAt` with the return time, and drops the open-loan count for the
code by one. -/
theorem C3_roundtrip (settings : Settings) (u : User) (st st₁ : LibState)
    (bookId : String) (now now₂ : Nat)
    (hfresh : ∀ l ∈ st.borrowedBooks, l.id ≠ toString now)
    (hok : borrowBook settings (some u) st bookId now = .ok st₁) :
    ∃ st₂, returnBook st₁ (toString now) now₂ = .ok st₂ ∧
      st₂.books = st.books ∧
      findAvail st₂.books bookId = findAvail st.books bookId ∧
      (st₂.borrowedBooks.find? (fun l => l.id == toString now)).map Loan.returnedAt
        = some (some now₂) ∧
      openLoansFor st₂.borrowedBooks bookId + 1 = openLoansFor st₁.borrowedBooks bookId := by
  obtain ⟨book, hfind, hst₁⟩ := borrowBook_ok_inv hok
  subst hst₁
  have hfreshP : ∀ l ∈ st.borrowedBooks, ¬ ((fun l : Loan => l.id == toString now) l) := by
    intro l hl
    simpa using hfresh l hl
  have hrecP : ((fun l : Loan => l.id == toString now)
      (mkBorrowRecord settings u book bookId now)) = true := by
    simp [mkBorrowRecord]
  have hfindLoan : (st.borrowedBooks ++ [mkBorrowRecord settings u book bookId now]).find?
      (fun l => l.id == toString now) = some (mkBorrowRecord settings u book bookId now) := by
    rw [find?_append_of_forall_neg _ hfreshP]
    exact List.find?_cons_of_pos _ hrecP
  have hloans : updateFirst (fun l => l.id == toString now)
      (fun l => { l with returnedAt := some now₂ })
      (st.borrowedBooks ++ [mkBorrowRecord settings u book bookId now])
      = st.borrowedBooks ++
        [{ mkBorrowRecord settings u book bookId now with returnedAt := some now₂ }] := by
    rw [updateFirst_append_of_forall_neg _ _ hfreshP]
    simp [updateFirst, hrecP]
  have hbooks : updateFirst (fun b => b.id == bookId)
      (fun b => { b with availableCopies := b.availableCopies + 1 })
      (updateFirst (fun b => b.id == bookId)
        (fun b => { b with availableCopies := b.availableCopies - 1 }) st.books)
      = st.books := by
    refine updateFirst_updateFirst hfind ?_ ?_
    · simpa using List.find?_some hfind
    · cases book
      simp
  refine ⟨LibState.mk (updateFirst (fun b => b.id == (mkBorrowRecord settings u book bookId now).bookId) (fun b => { b with availableCopies := b.availableCopies + 1 }) (updateFirst (fun b => b.id == bookId) (fun b => { b with availableCopies := b.availableCopies - 1 }) st.books)) (updateFirst (fun l => l.id == toString now) (fun l => { l with returnedAt := some now₂ }) (st.borrowedBooks ++ [mkBorrowRecord settings u book bookId now])), ?_, ?_, ?_, ?_, ?_⟩
  · rw [returnBook, hfindLoan]
    rfl
  · show updateFirst (fun b => b.id == (mkBorrowRecord settings u book bookId now).bookId)
      (fun b => { b with availableCopies := b.availableCopies + 1 }) _ = st.books
    exact hbooks
  · show findAvail (updateFirst (fun b => b.id == (mkBorrowRecord settings u book bookId now).bookId) (fun b => { b with availableCopies := b.availableCopies + 1 }) (updateFirst (fun b => b.id == bookId) (fun b => { b with availableCopies := b.availableCopies - 1 }) st.books)) bookId = findAvail st.books bookId
    rw [show updateFirst (fun b => b.id == (mkBorrowRecord settings u book bookId now).bookId) (fun b => { b with availableCopies := b.availableCopies + 1 }) (updateFirst (fun b => b.id == bookId) (fun b => { b with availableCopies := b.availableCopies - 1 }) st.books) = st.books from hbooks]
  · show ((updateFirst (fun l => l.id == toString now) (fun l => { l with returnedAt := some now₂ }) (st.borrowedBooks ++ [mkBorrowRecord settings u book bookId now])).find? (fun l => l.id == toString now)).map Loan.returnedAt = some (some now₂)
    rw [hloans, find?_append_of_forall_neg _ hfreshP, List.find?_cons_of_pos _ (by simp [mkBorrowRecord])]
    rfl
  · show openLoansFor (updateFirst (fun l => l.id == toString now) (fun l => { l with returnedAt := some now₂ }) (st.borrowedBooks ++ [mkBorrowRecord settings u book bookId now])) bookId + 1 = openLoansFor (st.borrowedBooks ++ [mkBorrowRecord settings u book bookId now]) bookId
    rw [hloans, openLoansFor_append, openLoansFor_append, openLoansFor_singleton,
      openLoansFor_singleton]
    simp [mkBorrowRecord]

/-- The book used by the C3 witness round trip. -/
def c3Book : Book :=
  { id := "B0002", bookIds := none, title := "U", genre := "橋梁書",
    year := 2024, copies := 3, availableCopies := 2 }

/-- Witness start state: one book, empty ledger. -/
def c3St : LibState := { books := [c3Book], borrowedBooks := [] }

/-- Witness state after bob borrows `B0002` at time 7. -/
def c3St₁ : LibState :=
  { books := [{ c3Book with availableCopies := 1 }],
    borrowedBooks := [mkBorrowRecord defaultSettings { username := "bob", role := "student" }
      c3Book "B0002" 7] }

/-- C3, witness: the round-trip theorem applied to bob borrowing `B0002` at
time 7 and returning at time 11. -/
theorem C3_roundtrip_witness :
    ∃ st₂, returnBook c3St₁ "7" 11 = .ok st₂ ∧ st₂.books = c3St.books ∧
      findAvail st₂.books "B0002" = findAvail c3St.books "B0002" ∧
      (st₂.borrowedBooks.find? (fun l => l.id == "7")).map Loan.returnedAt = some (some 11) ∧
      openLoansFor st₂.borrowedBooks "B0002" + 1 = openLoansFor c3St₁.borrowedBooks "B0002" :=
  C3_roundtrip defaultSettings { username := "bob", role := "student" } c3St c3St₁ "B0002" 7 11
    (by simp [c3St]) (by decide)

/-- C4: a pull invoked with the silent/automatic option set whose response
is well-formed (HTTP ok, `ok:true` body, both sequences present) but whose
`books` sequence is empty leaves a non-empty local state completely
unchanged — the protect-empty rule. -/
theorem C4_protect_empty (hasUrl : Bool) (st : LibState) (lns : List Loan)
    (confirmAnswer : Bool) (hne : st.books ≠ []) :
    pullFromGoogleSheets autoPullOptions hasUrl
      (.resp true (some { ok := true, data := some { books := some [], borrowedBooks := some lns } }))
      confirmAnswer st = st := by
  have hne' : st.books.isEmpty = false := by
    cases hb : st.books
    · exact absurd hb hne
    · rfl
  cases hasUrl <;> simp [pullFromGoogleSheets, autoPullOptions, hne']

/-- The book populating the C4 witness state. -/
def c4Book : Book :=
  { id := "C0003", bookIds := none, title := "V", genre := "文字書",
    year := 2024, copies := 1, availableCopies := 1 }

/-- Non-empty local state for the C4 witness. -/
def c4St : LibState := { books := [c4Book], borrowedBooks := [] }

/-- C4, witness: a silent pull answering an empty `books` array against the
one-book local state is a no-op. -/
theorem C4_protect_empty_witness :
    pullFromGoogleSheets autoPullOptions true
      (.resp true (some { ok := true, data := some { books := some [], borrowedBooks := some [] } }))
      false c4St = c4St :=
  C4_protect_empty true c4St [] false (by decide)

/-- C5: CSV-importing exactly the two rows `A0001,t` and `A0002,t` — the
same nonempty title under two distinct codes, each row counting one copy —
produces a catalog with a single merged record: id `A0001` (the first code
encountered), `bookIds = [A0001, A0002]`, `copies = 2`,
`availableCopies = 2`; the loan ledger is untouched. -/
theorem C5_csv_merge (settings : Settings) (st : LibState) (t : String)
    (ht : jsTrim t ≠ "") :
    (processCSVData settings [["A0001", t], ["A0002", t]] st).books =
      [{ id := "A0001", bookIds := some ["A0001", "A0002"], title := jsTrim t,
         genre := "繪本", year := settings.defaultYear, copies := 2, availableCopies := 2 }] ∧
    (processCSVData settings [["A0001", t], ["A0002", t]] st).borrowedBooks =
      st.borrowedBooks := by
  have ht' : (jsTrim t == "") = false := by
    rw [beq_eq_false_iff_ne]
    exact ht
  have e1 : (("A0001" : String) == "") = false := by decide
  have e2 : (("A0002" : String) == "") = false := by decide
  have e3 : jsTrim "A0001" = "A0001" := by decide
  have e4 : jsTrim "A0002" = "A0002" := by decide
  have e5 : validCode "A0001" = true := by decide
  have e6 : validCode "A0002" = true := by decide
  have e7 : getGenreFromId "A0001" = "繪本" := by decide
  have e8 : (["A0001"].contains "A0002") = false := by decide
  refine ⟨?_, rfl⟩
  simp [processCSVData, processCSVStats, csvRows, csvStep, mapLookup, mapSet,
    e1, e2, e3, e4, e5, e6, e7, e8, ht']

/-- C5, witness: the merge theorem at the concrete title `T` over an empty
initial state. -/
theorem C5_csv_merge_witness :
    (processCSVData defaultSettings [["A0001", "T"], ["A0002", "T"]]
      { books := [], borrowedBooks := [] }).books =
      [{ id := "A0001", bookIds := some ["A0001", "A0002"], title := "T",
         genre := "繪本", year := 2024, copies := 2, availableCopies := 2 }] ∧
    (processCSVData defaultSettings [["A0001", "T"], ["A0002", "T"]]
      { books := [], borrowedBooks := [] }).borrowedBooks = [] :=
  C5_csv_merge defaultSettings { books := [], borrowedBooks := [] } "T" (by decide)

/-- C6 (amended): in the generic tabular import, a row whose trimmed, valid
code equals some existing record's `id` is rejected — one error entry,
`errorCount = 1`, no record added.  The uniqueness check is
`this.books.find(book => book.id === id)` only: codes occurring solely
inside some record's `bookIds` array are not detected (see the
counterexample). -/
theorem C6_duplicate_id_rejected (settings : Settings) (st : LibState)
    (hdr row : List String)
    (hnonempty : row.getD 0 "" ≠ "")
    (hvalid : validCode (jsTrim (row.getD 0 "")) = true)
    (hdup : ∃ b ∈ st.books, b.id = jsTrim (row.getD 0 "")) :
    (processImportData settings [hdr, row] st).books = st.books ∧
    (processImportData settings [hdr, row] st).errorCount = 1 ∧
    (processImportData settings [hdr, row] st).successCount = 0 := by
  cases row with
  | nil => simp at hnonempty
  | cons a l =>
    simp only [List.getD_cons_zero] at hnonempty hvalid hdup
    refine ⟨?_, ?_, ?_⟩ <;>
      simp [processImportData, importRows, importStep, hnonempty, hvalid, hdup]

/-- The merged record whose `bookIds` holds the extra code `A0002`. -/
def c6Book : Book :=
  { id := "A0001", bookIds := some ["A0001", "A0002"], title := "T", genre := "繪本",
    year := 2024, copies := 2, availableCopies := 2 }

/-- Store already containing code `A0002` (inside `bookIds`). -/
def c6St : LibState := { books := [c6Book], borrowedBooks := [] }

/-- C6, counterexample to the claim as stated: `A0002` is present in the
store — as an entry of the merged record's `bookIds` — yet importing the row
`A0002,X` is accepted: no error entry, `errorCount = 0`, and a second
record is pushed. -/
theorem C6_counterexample :
    c6Book ∈ c6St.books ∧ "A0002" ∈ c6Book.bookIds.getD [] ∧
    (processImportData defaultSettings [["code", "title"], ["A0002", "X"]] c6St).errorCount = 0 ∧
    (processImportData defaultSettings [["code", "title"], ["A0002", "X"]] c6St).errors = [] ∧
    (processImportData defaultSettings [["code", "title"], ["A0002", "X"]] c6St).books.length = 2 := by
  decide

/-- C6, witness: importing the row `A0001,X` — whose code is the existing
record's `id` — is rejected with one error and no new record. -/
theorem C6_duplicate_id_rejected_witness :
    (processImportData defaultSettings [["code", "title"], ["A0001", "X"]] c6St).books = c6St.books ∧
    (processImportData defaultSettings [["code", "title"], ["A0001", "X"]] c6St).errorCount = 1 ∧
    (processImportData defaultSettings [["code", "title"], ["A0001", "X"]] c6St).successCount = 0 :=
  C6_duplicate_id_rejected defaultSettings c6St ["code", "title"] ["A0001", "X"]
    (by decide) (by decide) ⟨c6Book, by decide, by decide⟩

/-- C7 (amended): the code validator is case-sensitive: a code is valid iff
its first character is literally `A`, `B` or `C` (uppercase) followed by a
nonempty string of ASCII digits.  In particular `A0001` is accepted but
`a0001` is rejected — the regex `/^[ABC]\d+$/` used at script.js lines 437,
665 and 890 does not carry the `i` flag. -/
theorem C7_validate_uppercase_only :
    (∀ s : String, validCode s = true ↔
      ∃ c cs, s.data = c :: cs ∧ (c = 'A' ∨ c = 'B' ∨ c = 'C') ∧ cs ≠ [] ∧
        ∀ d ∈ cs, d.isDigit = true) ∧
    validCode "A0001" = true ∧ validCode "a0001" = false := by
  refine ⟨?_, by decide, by decide⟩
  intro s
  constructor
  · intro h
    rw [validCode] at h
    cases hs : s.data with
    | nil => rw [hs] at h; simp at h
    | cons c cs =>
      rw [hs] at h
      simp only [Bool.and_eq_true, Bool.or_eq_true, beq_iff_eq, Bool.not_eq_true',
        List.all_eq_true] at h
      obtain ⟨⟨hc, hne⟩, hall⟩ := h
      refine ⟨c, cs, rfl, or_assoc.mp hc, ?_, hall⟩
      intro hnil
      rw [hnil] at hne
      simp at hne
  · rintro ⟨c, cs, hs, hc, hne, hdig⟩
    rw [validCode, hs]
    simp only [Bool.and_eq_true, Bool.or_eq_true, beq_iff_eq, Bool.not_eq_true',
      List.all_eq_true]
    refine ⟨⟨or_assoc.mpr hc, ?_⟩, hdig⟩
    cases cs with
    | nil => exact absurd rfl hne
    | cons d ds => rfl

/-- C7, counterexample to the claim as stated: the claim requires
`validate("a0001")` to be accepted (case-insensitive prefix); the code's
validator rejects it. -/
theorem C7_counterexample : validCode "a0001" = false := by decide

/-- C8 (amended): the CSV path's per-row copies increment is the hardcoded
constant 1 (`const copies = 1`, script.js line 458), not the
`defaultCopies` setting: importing one valid row yields
`copies = availableCopies = 1` whatever `settings.defaultCopies` is. -/
theorem C8_csv_copies_constant_one (settings : Settings) (st : LibState) (t : String)
    (ht : jsTrim t ≠ "") :
    (processCSVData settings [["A0001", t]] st).books.map
      (fun b => (b.copies, b.availableCopies)) = [(1, 1)] := by
  have ht' : (jsTrim t == "") = false := by
    rw [beq_eq_false_iff_ne]
    exact ht
  have e3 : jsTrim "A0001" = "A0001" := by decide
  have e5 : validCode "A0001" = true := by decide
  simp [processCSVData, processCSVStats, csvRows, csvStep, mapLookup, mapSet, e3, e5, ht']

/-- Settings with `defaultCopies = 2`, to separate the constant from the
configuration. -/
def c8Settings : Settings := { defaultSettings with defaultCopies := 2 }

/-- C8, counterexample to the claim as stated: with `defaultCopies = 2` the
CSV import of a single row still increments its title group by 1, not by the
configured default. -/
theorem C8_counterexample :
    c8Settings.defaultCopies = 2 ∧
    (processCSVData c8Settings [["A0001", "T"]]
      { books := [], borrowedBooks := [] }).books.map (fun b => b.copies) = [1] ∧
    ¬ ((processCSVData c8Settings [["A0001", "T"]]
      { books := [], borrowedBooks := [] }).books.map (fun b => b.copies)
        = [c8Settings.defaultCopies]) := by
  decide

/-- C8, witness: the amended theorem at title `T` under the
`defaultCopies = 2` settings. -/
theorem C8_csv_copies_constant_one_witness :
    (processCSVData c8Settings [["A0001", "T"]] { books := [], borrowedBooks := [] }).books.map
      (fun b => (b.copies, b.availableCopies)) = [(1, 1)] :=
  C8_csv_copies_constant_one c8Settings { books := [], borrowedBooks := [] } "T" (by decide)

/-- C9: a burst of three `scheduleAutoSync` calls with no timer expiry in
between runs no push by itself and leaves exactly one armed timer, the last
call's deadline (each call `clearTimeout`s its predecessor); when that timer
fires, `autoPushToGoogleSheets` runs exactly once, and a second fire event
is a no-op because the handle was already cleared. -/
theorem C9_debounce (m : DebounceModel) (t₁ t₂ t₃ tf tf₂ : Nat)
    (hf : t₃ + autoSyncDebounceMs ≤ tf) :
    (scheduleAutoSync t₃ (scheduleAutoSync t₂ (scheduleAutoSync t₁ m))).autoPushRuns
      = m.autoPushRuns ∧
    (scheduleAutoSync t₃ (scheduleAutoSync t₂ (scheduleAutoSync t₁ m))).autoSyncTimer
      = some (t₃ + autoSyncDebounceMs) ∧
    (autoSyncTimerFire tf (scheduleAutoSync t₃ (scheduleAutoSync t₂
      (scheduleAutoSync t₁ m)))).autoPushRuns = m.autoPushRuns + 1 ∧
    (autoSyncTimerFire tf₂ (autoSyncTimerFire tf (scheduleAutoSync t₃ (scheduleAutoSync t₂
      (scheduleAutoSync t₁ m))))).autoPushRuns = m.autoPushRuns + 1 := by
  refine ⟨rfl, rfl, ?_, ?_⟩
  · simp [scheduleAutoSync, autoSyncTimerFire, hf]
  · simp [scheduleAutoSync, autoSyncTimerFire, hf]

/-- C9, witness: three schedule calls at times 0, 1, 2 from the idle model,
with the surviving timer firing at its deadline 1502 and a spurious second
fire at 1503. -/
theorem C9_debounce_witness :
    (scheduleAutoSync 2 (scheduleAutoSync 1 (scheduleAutoSync 0
      { autoSyncTimer := none, autoPushRuns := 0 }))).autoPushRuns = 0 ∧
    (scheduleAutoSync 2 (scheduleAutoSync 1 (scheduleAutoSync 0
      { autoSyncTimer := none, autoPushRuns := 0 }))).autoSyncTimer = some (2 + autoSyncDebounceMs) ∧
    (autoSyncTimerFire 1502 (scheduleAutoSync 2 (scheduleAutoSync 1 (scheduleAutoSync 0
      { autoSyncTimer := none, autoPushRuns := 0 })))).autoPushRuns = 0 + 1 ∧
    (autoSyncTimerFire 1503 (autoSyncTimerFire 1502 (scheduleAutoSync 2 (scheduleAutoSync 1
      (scheduleAutoSync 0 { autoSyncTimer := none, autoPushRuns := 0 }))))).autoPushRuns = 0 + 1 :=
  C9_debounce { autoSyncTimer := none, autoPushRuns := 0 } 0 1 2 1502 1503 (by decide)

/-- C10 (amended): an automatic push attempted while `now < cooldownUntil`
is skipped with no HTTP request sent; a push whose `fetch` rejects
(transport failure) stamps `lastRunAt` and sets
`cooldownUntil = failNow + 60000`; but an HTTP response — any status,
non-2xx included — resolves `pushToGoogleSheets` normally, so no exception
reaches the catch block and `cooldownUntil` is left unchanged, contrary to
the original claim. -/
theorem C10_cooldown (g : SyncGate) (now failNow : Nat) (outcome : PushFetch)
    (httpOk bodyOk : Bool) :
    (now < g.autoSyncCooldownUntil →
      autoPushToGoogleSheets g true now failNow outcome = (g, false)) ∧
    (¬ now < g.autoSyncCooldownUntil →
      ¬ ((now : Int) - (g.autoSyncLastRunAt : Int) < (autoSyncMinIntervalMs : Int)) →
      autoPushToGoogleSheets g true now failNow .reject =
        ({ autoSyncLastRunAt := now, autoSyncCooldownUntil := failNow + autoSyncBackoffMs }, true)) ∧
    (¬ now < g.autoSyncCooldownUntil →
      ¬ ((now : Int) - (g.autoSyncLastRunAt : Int) < (autoSyncMinIntervalMs : Int)) →
      autoPushToGoogleSheets g true now failNow (.resp httpOk bodyOk) =
        ({ g with autoSyncLastRunAt := now }, true)) := by
  refine ⟨?_, ?_, ?_⟩
  · intro h1
    simp [autoPushToGoogleSheets, h1]
  · intro h1 h2
    simp [autoPushToGoogleSheets, h1, h2]
  · intro h1 h2
    simp [autoPushToGoogleSheets, h1, h2]

/-- C10, counterexample to the claim as stated: a non-2xx response is a
failed push (a request was sent, the upload did not succeed), yet the
cooldown is not set — it stays 0 rather than becoming `now + 60000` — so
nothing prevents the next push attempt on cooldown grounds. -/
theorem C10_counterexample :
    (autoPushToGoogleSheets { autoSyncLastRunAt := 0, autoSyncCooldownUntil := 0 } true
      1000000 1000000 (.resp false false)).2 = true ∧
    (autoPushToGoogleSheets { autoSyncLastRunAt := 0, autoSyncCooldownUntil := 0 } true
      1000000 1000000 (.resp false false)).1.autoSyncCooldownUntil = 0 ∧
    ¬ ((autoPushToGoogleSheets { autoSyncLastRunAt := 0, autoSyncCooldownUntil := 0 } true
      1000000 1000000 (.resp false false)).1.autoSyncCooldownUntil
        = 1000000 + autoSyncBackoffMs) := by
  decide

/-- C10, witness: with the cooldown set until 5000, an automatic push at
time 10 is skipped — the state is untouched and no request is sent. -/
theorem C10_cooldown_witness :
    autoPushToGoogleSheets { autoSyncLastRunAt := 0, autoSyncCooldownUntil := 5000 } true
      10 10 .reject = ({ autoSyncLastRunAt := 0, autoSyncCooldownUntil := 5000 }, false) :=
  (C10_cooldown { autoSyncLastRunAt := 0, autoSyncCooldownUntil := 5000 } 10 10 .reject
    false false).1 (by decide)
